import Mathlib

/-
Verification of the glob-style pattern engine: the continuation-chained
backtracking matcher (MatchingPatterns.cpp) and the tokenizer / parser
(ParsingText.cpp).  Strings are modelled as `List Char`, `size_t` match
positions as `Nat`, and the `NOT_A_MATCH = SIZE_MAX` sentinel as `none`
in an `Option Nat` result (positions stay far below `SIZE_MAX`, so the
sentinel is faithfully a distinguished non-position value).
-/

set_option autoImplicit false

namespace GlobSpec

/-- The matcher-node tree of MatchingPatterns.cpp.  Each node carries its
continuation `rest`; constructors in the source default `rest` to a fresh
`Null`.  The `Choice` and `OnePlus` node kinds are not needed by any of the
properties below and are omitted. -/
inductive Match where
  | null : Match
  | lit (chars : List Char) (rest : Match) : Match
  | any (rest : Match) : Match
  | either (left right rest : Match) : Match
  | charset (charset : List Char) (rest : Match) : Match
  | range (left right : Char) (rest : Match) : Match
deriving DecidableEq, Repr

/-- `text[i]` via `std::string::operator[]`: at `i = text.length()` the
C++ standard guarantees the null character is returned. -/
def charAt (text : List Char) (i : Nat) : Char :=
  text.getD i (Char.ofNat 0)

/-- The candidate loop of `Any::_match`: `for (i = first; i <= len; i++)`,
returning the first candidate whose continuation result `k i` equals `len`.
`cnt` is the number of candidates still to try (`len + 1 - first` at entry),
so the loop runs while `i <= len`. -/
def anyLoop (k : Nat → Option Nat) (len : Nat) : Nat → Nat → Option Nat
  | 0, _ => none
  | cnt + 1, i =>
    if k i = some len then some len else anyLoop k len cnt (i + 1)

/-- The member loop of `Charset::_match`: for each `c` in the stored set, if
`text[start] == c` and the continuation result at `start+1` equals `len`,
return it; otherwise keep scanning; `none` after the set is exhausted. -/
def charsetLoop (k : Nat → Option Nat) (len : Nat) (t : Char) (start : Nat) :
    List Char → Option Nat
  | [] => none
  | c :: cs =>
    if t = c then
      if k (start + 1) = some len then some len
      else charsetLoop k len t start cs
    else charsetLoop k len t start cs

/-- `_match(text, start)` for every node kind, exactly as the source:

* `Null` returns `start`;
* `Lit` compares `text.substr(start, chars.length())` with `chars`
  (modelled as `(text.drop start).take chars.length`) and on success
  delegates to the continuation at `start + chars.length()`;
* `Any` runs its candidate loop with `i` starting at `0` (the source's
  `for (size_t i = 0; i <= text.length(); i++)`);
* `Either` tries `left` then `right`; a branch whose own result is not
  `NOT_A_MATCH` is accepted only if the continuation applied to that
  result equals `text.length()`;
* `Charset` scans its member loop from `text[start]`;
* `Range` tests `left <= text[start] <= right` and on success returns the
  continuation's result from `start + 1` unchanged. -/
def tryMatch (m : Match) (text : List Char) (start : Nat) : Option Nat :=
  match m with
  | .null => some start
  | .lit chars rest =>
    if (text.drop start).take chars.length ≠ chars then none
    else tryMatch rest text (start + chars.length)
  | .any rest =>
    anyLoop (fun i => tryMatch rest text i) text.length (text.length + 1) 0
  | .either left right rest =>
    match tryMatch left text start with
    | some e =>
      if tryMatch rest text e = some text.length then some text.length
      else
        match tryMatch right text start with
        | some e2 =>
          if tryMatch rest text e2 = some text.length then some text.length
          else none
        | none => none
    | none =>
      match tryMatch right text start with
      | some e2 =>
        if tryMatch rest text e2 = some text.length then some text.length
        else none
      | none => none
  | .charset cs rest =>
    charsetLoop (fun i => tryMatch rest text i) text.length (charAt text start)
      start cs
  | .range lo hi rest =>
    if lo ≤ charAt text start ∧ charAt text start ≤ hi then
      tryMatch rest text (start + 1)
    else none

/-- The top-level `Match::match`: run `_match(text, 0)` and succeed exactly
when the returned position equals `text.length()`. -/
def matchGlob (m : Match) (text : List Char) : Bool :=
  tryMatch m text 0 = some text.length

/-- The matcher as the specification describes the `Any` node: identical to
`tryMatch` except that the candidate loop of `Any` begins at `start` rather
than at `0` ("for each candidate end position `i` from `start` to
`len(text)` inclusive").  Used to exhibit where the source diverges from
the specified behaviour. -/
def tryMatchSpecAny (m : Match) (text : List Char) (start : Nat) : Option Nat :=
  match m with
  | .null => some start
  | .lit chars rest =>
    if (text.drop start).take chars.length ≠ chars then none
    else tryMatchSpecAny rest text (start + chars.length)
  | .any rest =>
    anyLoop (fun i => tryMatchSpecAny rest text i) text.length
      (text.length + 1 - start) start
  | .either left right rest =>
    match tryMatchSpecAny left text start with
    | some e =>
      if tryMatchSpecAny rest text e = some text.length then some text.length
      else
        match tryMatchSpecAny right text start with
        | some e2 =>
          if tryMatchSpecAny rest text e2 = some text.length then
            some text.length
          else none
        | none => none
    | none =>
      match tryMatchSpecAny right text start with
      | some e2 =>
        if tryMatchSpecAny rest text e2 = some text.length then
          some text.length
        else none
      | none => none
  | .charset cs rest =>
    charsetLoop (fun i => tryMatchSpecAny rest text i) text.length
      (charAt text start) start cs
  | .range lo hi rest =>
    if lo ≤ charAt text start ∧ charAt text start ≤ hi then
      tryMatchSpecAny rest text (start + 1)
    else none

/-- Top-level `match` over the spec-described `Any` candidate loop. -/
def matchGlobSpecAny (m : Match) (text : List Char) : Bool :=
  tryMatchSpecAny m text 0 = some text.length

/-!  The tokenizer and parser of ParsingText.cpp.  Thrown exceptions are
modelled as `Except GlobErr` results; an out-of-bounds `vector::operator[]`
read (undefined behaviour in the source) surfaces as the distinguished
`indexOutOfBounds` value.  -/

/-- The `TokenType` enumeration; `ttNone` is the flush-only marker passed to
`Tokenizer::add` and never stored in an emitted token by the tokenizer. -/
inductive TokenType where
  | ttNone | ttLiteral | ttAny | ttEitherStart | ttEitherEnd
  | ttCharsetStart | ttCharsetEnd
deriving DecidableEq, Repr

/-- A token: a `TokenType` plus its text (empty except for literals). -/
structure Token where
  type : TokenType
  text : List Char
deriving DecidableEq, Repr

/-- The mutable tokenizer object: the accumulated token vector and the
pending literal buffer `current`. -/
structure Tokenizer where
  tokens : List Token
  current : List Char
deriving DecidableEq, Repr

/-- `Tokenizer::add`: flush `current` as a `Literal` token when non-empty,
then append a token of type `ty` unless `ty` is `ttNone`. -/
def Tokenizer.add (tk : Tokenizer) (ty : TokenType) : Tokenizer :=
  let tk1 : Tokenizer :=
    if tk.current.length > 0 then
      ⟨tk.tokens ++ [⟨.ttLiteral, tk.current⟩], []⟩
    else tk
  if ty ≠ .ttNone then ⟨tk1.tokens ++ [⟨ty, []⟩], tk1.current⟩ else tk1

/-- Every error the engine can raise: the tokenizer's invalid-character
exception, the parser's two exceptions, and the out-of-bounds token read. -/
inductive GlobErr where
  | invalidCharacter | malformedPattern | invalidCodePath | indexOutOfBounds
deriving DecidableEq, Repr

/-- The alphanumeric test of the tokenizer's final branch:
`(ch >= 'A' && ch <= 'Z') || (ch >= 'a' && ch <= 'z') || (ch >= '0' && ch <= '9')`. -/
def isAlnumCpp (c : Char) : Bool :=
  ('A' ≤ c && c ≤ 'Z') || ('a' ≤ c && c ≤ 'z') || ('0' ≤ c && c ≤ '9')

/-- The character loop of `Tokenizer::tokenize`, carried out over the
remaining input with the escape flag `esc` (`escape_next`); at end of
input `add(TT_None)` flushes any pending literal. -/
def tokenizeGo (tk : Tokenizer) (esc : Bool) :
    List Char → Except GlobErr Tokenizer
  | [] => .ok (tk.add .ttNone)
  | c :: cs =>
    if esc then tokenizeGo ⟨tk.tokens, tk.current ++ [c]⟩ false cs
    else if c = '\\' then tokenizeGo tk true cs
    else if c = '*' then tokenizeGo (tk.add .ttAny) false cs
    else if c = '\x7b' then tokenizeGo (tk.add .ttEitherStart) false cs
    else if c = '\x7d' then tokenizeGo (tk.add .ttEitherEnd) false cs
    else if c = '[' then tokenizeGo (tk.add .ttCharsetStart) false cs
    else if c = ']' then tokenizeGo (tk.add .ttCharsetEnd) false cs
    else if c = ',' then tokenizeGo (tk.add .ttNone) false cs
    else if isAlnumCpp c then tokenizeGo ⟨tk.tokens, tk.current ++ [c]⟩ false cs
    else .error .invalidCharacter

instance {ε α : Type} [DecidableEq ε] [DecidableEq α] : DecidableEq (Except ε α)
  | .ok a, .ok b => decidable_of_iff (a = b) (by simp)
  | .ok _, .error _ => .isFalse (by simp)
  | .error _, .ok _ => .isFalse (by simp)
  | .error a, .error b => decidable_of_iff (a = b) (by simp)

/-- `Tokenizer::tokenize` run on an existing tokenizer object: the loop
starts with `escape_next = false` and whatever `tokens` / `current` the
object already holds. -/
def Tokenizer.tokenizeOn (tk : Tokenizer) (text : List Char) :
    Except GlobErr Tokenizer :=
  tokenizeGo tk false text

/-- Tokenizing on a freshly constructed tokenizer (empty token vector,
empty literal buffer). -/
def tokenizeFresh (text : List Char) : Except GlobErr Tokenizer :=
  Tokenizer.tokenizeOn ⟨[], []⟩ text

/-- `tokens[i]` via `vector::operator[]`.  Reading past the end of the
vector is undefined behaviour in the source; the embedding surfaces such a
read as the distinguished `indexOutOfBounds` error. -/
def getTok (toks : List Token) (i : Nat) : Except GlobErr Token :=
  match toks.get? i with
  | some t => .ok t
  | none => .error .indexOutOfBounds

/-- `Parser::_parse(tokens, start)`, with the source's order of operations
kept: in the `EitherStart` and `CharsetStart` branches the token reads at
`start+1 .. start+3` (resp. `start+1 .. start+2`) happen before the
`tokens.size() - start` arity check and the token-kind checks. -/
def parseToks (toks : List Token) (start : Nat) : Except GlobErr Match :=
  if start ≥ toks.length then .ok .null
  else
    match getTok toks start with
    | .error e => .error e
    | .ok t =>
      match t.type with
      | .ttAny =>
        match parseToks toks (start + 1) with
        | .ok k => .ok (.any k)
        | .error e => .error e
      | .ttEitherStart =>
        match getTok toks (start + 1) with
        | .error e => .error e
        | .ok left =>
          match getTok toks (start + 2) with
          | .error e => .error e
          | .ok right =>
            match getTok toks (start + 3) with
            | .error e => .error e
            | .ok endT =>
              if toks.length - start < 3 ∨ left.type ≠ .ttLiteral ∨
                  right.type ≠ .ttLiteral ∨ endT.type ≠ .ttEitherEnd then
                .error .malformedPattern
              else
                match parseToks toks (start + 4) with
                | .ok k =>
                  .ok (.either (.lit left.text .null) (.lit right.text .null) k)
                | .error e => .error e
      | .ttCharsetStart =>
        match getTok toks (start + 1) with
        | .error e => .error e
        | .ok chars =>
          match getTok toks (start + 2) with
          | .error e => .error e
          | .ok endT =>
            if toks.length - start < 2 ∨ chars.type ≠ .ttLiteral ∨
                endT.type ≠ .ttCharsetEnd then
              .error .malformedPattern
            else
              match parseToks toks (start + 3) with
              | .ok k => .ok (.charset chars.text k)
              | .error e => .error e
      | .ttLiteral =>
        match parseToks toks (start + 1) with
        | .ok k => .ok (.lit t.text k)
        | .error e => .error e
      | _ => .error .invalidCodePath
termination_by toks.length - start
decreasing_by all_goals omega

/-- `Parser::parse` on a freshly constructed `Parser` (hence a fresh
tokenizer): tokenize the pattern, then `_parse` the resulting tokens from
position `0`. -/
def parseGlob (text : List Char) : Except GlobErr Match :=
  match tokenizeFresh text with
  | .ok tk => parseToks tk.tokens 0
  | .error e => .error e

/-- `compare_match`: structural equality over the node kinds the source's
`dynamic_cast` cascade handles (`Null`, `Lit`, `Any`, `Either`, `Charset`);
every other combination, including two `Range` nodes, falls through to
`false`. -/
def compareMatch : Match → Match → Bool
  | .null, .null => true
  | .lit c1 r1, .lit c2 r2 => c1 = c2 && compareMatch r1 r2
  | .any r1, .any r2 => compareMatch r1 r2
  | .either l1 rt1 r1, .either l2 rt2 r2 =>
    compareMatch l1 l2 && compareMatch rt1 rt2 && compareMatch r1 r2
  | .charset c1 r1, .charset c2 r2 => c1 = c2 && compareMatch r1 r2
  | _, _ => false

/-- Spec-side predicate for the tokenizer's failure condition, written from
the specification's words: the pattern contains, at an unescaped position, a
character that is neither alphanumeric `[A-Za-z0-9]` nor one of the
recognized delimiters `* \x7b \x7d [ ] , \`.  The first argument is the
escape state carried into the remaining characters. -/
def hasUnescapedInvalid : Bool → List Char → Bool
  | _, [] => false
  | true, _ :: cs => hasUnescapedInvalid false cs
  | false, c :: cs =>
    if isAlnumCpp c
        || ([ '*', '\x7b', '\x7d', '[', ']', ',', '\\'] : List Char).contains c
    then hasUnescapedInvalid (c == '\\') cs
    else true

/-- The value of the tokenizer's `escape_next` flag after scanning a list of
characters (ignoring whether an invalid character aborts the scan):
`scanEsc false p = true` exactly when `p` ends in an unescaped backslash. -/
def scanEsc : Bool → List Char → Bool
  | esc, [] => esc
  | true, _ :: cs => scanEsc false cs
  | false, c :: cs => scanEsc (c == '\\') cs

theorem add_tokens_append (pre ts : List Token) (cur : List Char)
    (ty : TokenType) :
    Tokenizer.add ⟨pre ++ ts, cur⟩ ty
      = ⟨pre ++ (Tokenizer.add ⟨ts, cur⟩ ty).tokens,
          (Tokenizer.add ⟨ts, cur⟩ ty).current⟩ := by
  simp only [Tokenizer.add]
  split <;> split <;> simp

theorem tokenizeGo_tokens_append (pre : List Token) (cs : List Char) :
    ∀ (ts : List Token) (cur : List Char) (esc : Bool),
    tokenizeGo ⟨pre ++ ts, cur⟩ esc cs
      = Except.map (fun r : Tokenizer => ⟨pre ++ r.tokens, r.current⟩)
          (tokenizeGo ⟨ts, cur⟩ esc cs) := by
  induction cs with
  | nil =>
    intro ts cur esc
    simp [tokenizeGo, add_tokens_append, Except.map]
  | cons c cs ih =>
    intro ts cur esc
    by_cases hesc : esc
    · simpa [tokenizeGo, hesc] using ih ts (cur ++ [c]) false
    · by_cases hb : c = '\\'
      · simpa [tokenizeGo, hesc, hb] using ih ts cur true
      · by_cases h1 : c = '*'
        · simpa [tokenizeGo, hesc, hb, h1, add_tokens_append]
            using ih (Tokenizer.add ⟨ts, cur⟩ .ttAny).tokens
              (Tokenizer.add ⟨ts, cur⟩ .ttAny).current false
        · by_cases h2 : c = '\x7b'
          · simpa [tokenizeGo, hesc, hb, h1, h2, add_tokens_append]
              using ih (Tokenizer.add ⟨ts, cur⟩ .ttEitherStart).tokens
                (Tokenizer.add ⟨ts, cur⟩ .ttEitherStart).current false
          · by_cases h3 : c = '\x7d'
            · simpa [tokenizeGo, hesc, hb, h1, h2, h3, add_tokens_append]
                using ih (Tokenizer.add ⟨ts, cur⟩ .ttEitherEnd).tokens
                  (Tokenizer.add ⟨ts, cur⟩ .ttEitherEnd).current false
            · by_cases h4 : c = '['
              · simpa [tokenizeGo, hesc, hb, h1, h2, h3, h4, add_tokens_append]
                  using ih (Tokenizer.add ⟨ts, cur⟩ .ttCharsetStart).tokens
                    (Tokenizer.add ⟨ts, cur⟩ .ttCharsetStart).current false
              · by_cases h5 : c = ']'
                · simpa [tokenizeGo, hesc, hb, h1, h2, h3, h4, h5,
                      add_tokens_append]
                    using ih (Tokenizer.add ⟨ts, cur⟩ .ttCharsetEnd).tokens
                      (Tokenizer.add ⟨ts, cur⟩ .ttCharsetEnd).current false
                · by_cases h6 : c = ','
                  · simpa [tokenizeGo, hesc, hb, h1, h2, h3, h4, h5, h6,
                        add_tokens_append]
                      using ih (Tokenizer.add ⟨ts, cur⟩ .ttNone).tokens
                        (Tokenizer.add ⟨ts, cur⟩ .ttNone).current false
                  · by_cases h7 : isAlnumCpp c
                    · simpa [tokenizeGo, hesc, hb, h1, h2, h3, h4, h5, h6, h7]
                        using ih ts (cur ++ [c]) false
                    · simp [tokenizeGo, hesc, hb, h1, h2, h3, h4, h5, h6, h7,
                        Except.map]

theorem tokenizeGo_ok_current (cs : List Char) :
    ∀ (tk : Tokenizer) (esc : Bool) (r : Tokenizer),
    tokenizeGo tk esc cs = .ok r → r.current = [] := by
  induction cs with
  | nil =>
    intro tk esc r h
    simp only [tokenizeGo, Except.ok.injEq] at h
    subst h
    simp only [Tokenizer.add]
    split <;> split <;> simp_all [List.length_eq_zero]
  | cons c cs ih =>
    intro tk esc r h
    by_cases hesc : esc
    · exact ih _ _ _ (by simpa [tokenizeGo, hesc] using h)
    · by_cases hb : c = '\\'
      · exact ih _ _ _ (by simpa [tokenizeGo, hesc, hb] using h)
      · by_cases h1 : c = '*'
        · exact ih _ _ _ (by simpa [tokenizeGo, hesc, hb, h1] using h)
        · by_cases h2 : c = '\x7b'
          · exact ih _ _ _ (by simpa [tokenizeGo, hesc, hb, h1, h2] using h)
          · by_cases h3 : c = '\x7d'
            · exact ih _ _ _
                (by simpa [tokenizeGo, hesc, hb, h1, h2, h3] using h)
            · by_cases h4 : c = '['
              · exact ih _ _ _
                  (by simpa [tokenizeGo, hesc, hb, h1, h2, h3, h4] using h)
              · by_cases h5 : c = ']'
                · exact ih _ _ _
                    (by simpa [tokenizeGo, hesc, hb, h1, h2, h3, h4, h5]
                      using h)
                · by_cases h6 : c = ','
                  · exact ih _ _ _
                      (by simpa [tokenizeGo, hesc, hb, h1, h2, h3, h4, h5, h6]
                        using h)
                  · by_cases h7 : isAlnumCpp c
                    · exact ih _ _ _
                        (by simpa [tokenizeGo, hesc, hb, h1, h2, h3, h4, h5,
                            h6, h7] using h)
                    · simp [tokenizeGo, hesc, hb, h1, h2, h3, h4, h5, h6,
                        h7] at h

theorem tokenizeGo_error_iff_invalid (cs : List Char) :
    ∀ (tk : Tokenizer) (esc : Bool),
    (tokenizeGo tk esc cs = .error .invalidCharacter
      ↔ hasUnescapedInvalid esc cs = true) := by
  induction cs with
  | nil =>
    intro tk esc
    simp [tokenizeGo, hasUnescapedInvalid]
  | cons c cs ih =>
    intro tk esc
    by_cases hesc : esc
    · simpa [tokenizeGo, hasUnescapedInvalid, hesc] using ih _ false
    · by_cases hb : c = '\\'
      · simpa [tokenizeGo, hasUnescapedInvalid, hesc, hb] using ih tk true
      · by_cases h1 : c = '*'
        · simpa [tokenizeGo, hasUnescapedInvalid, hesc, hb, h1]
            using ih _ false
        · by_cases h2 : c = '\x7b'
          · simpa [tokenizeGo, hasUnescapedInvalid, hesc, hb, h1, h2]
              using ih _ false
          · by_cases h3 : c = '\x7d'
            · simpa [tokenizeGo, hasUnescapedInvalid, hesc, hb, h1, h2, h3]
                using ih _ false
            · by_cases h4 : c = '['
              · simpa [tokenizeGo, hasUnescapedInvalid, hesc, hb, h1, h2, h3,
                    h4] using ih _ false
              · by_cases h5 : c = ']'
                · simpa [tokenizeGo, hasUnescapedInvalid, hesc, hb, h1, h2,
                      h3, h4, h5] using ih _ false
                · by_cases h6 : c = ','
                  · simpa [tokenizeGo, hasUnescapedInvalid, hesc, hb, h1, h2,
                        h3, h4, h5, h6] using ih _ false
                  · have hcb : (c == '\\') = false := by simp [hb]
                    by_cases h7 : isAlnumCpp c
                    · simpa [tokenizeGo, hasUnescapedInvalid, hesc, hb, hcb,
                          h1, h2, h3, h4, h5, h6, h7]
                        using ih ⟨tk.tokens, tk.current ++ [c]⟩ false
                    · simp [tokenizeGo, hasUnescapedInvalid, hesc, hb, h1, h2,
                        h3, h4, h5, h6, h7]

theorem tokenizeGo_trailing_backslash (cs : List Char) :
    ∀ (tk : Tokenizer) (esc : Bool), scanEsc esc cs = false →
    tokenizeGo tk esc (cs ++ ['\\']) = tokenizeGo tk esc cs := by
  induction cs with
  | nil =>
    intro tk esc h
    simp only [scanEsc] at h
    subst h
    simp [tokenizeGo]
  | cons c cs ih =>
    intro tk esc h
    by_cases hesc : esc
    · subst hesc
      simp only [scanEsc] at h
      simp only [List.cons_append, tokenizeGo, if_pos rfl]
      exact ih _ false h
    · simp only [Bool.not_eq_true] at hesc
      subst hesc
      simp only [scanEsc] at h
      by_cases hb : c = '\\'
      · subst hb
        simp only [beq_self_eq_true] at h
        simp only [List.cons_append, tokenizeGo, if_pos rfl,
          Bool.false_eq_true, if_false]
        exact ih _ true h
      · have hcb : (c == '\\') = false := by simp [hb]
        have h' : scanEsc false cs = false := by
          simpa [hcb] using h
        have key : ∀ tk' : Tokenizer,
            tokenizeGo tk' false (cs ++ ['\\']) = tokenizeGo tk' false cs :=
          fun tk' => ih tk' false h'
        by_cases h1 : c = '*'
        · simp [tokenizeGo, hb, h1, key]
        · by_cases h2 : c = '\x7b'
          · simp [tokenizeGo, hb, h1, h2, key]
          · by_cases h3 : c = '\x7d'
            · simp [tokenizeGo, hb, h1, h2, h3, key]
            · by_cases h4 : c = '['
              · simp [tokenizeGo, hb, h1, h2, h3, h4, key]
              · by_cases h5 : c = ']'
                · simp [tokenizeGo, hb, h1, h2, h3, h4, h5, key]
                · by_cases h6 : c = ','
                  · simp [tokenizeGo, hb, h1, h2, h3, h4, h5, h6, key]
                  · by_cases h7 : isAlnumCpp c
                    · simp [tokenizeGo, hb, h1, h2, h3, h4, h5, h6, h7, key]
                    · simp [tokenizeGo, hb, h1, h2, h3, h4, h5, h6, h7]

/-!  Claim theorems.  -/

/-- C1: for every matcher tree `m` and subject `text`, the top-level match
succeeds iff `_match(m, text, 0)` returns exactly `text.length`; a
`NOT_A_MATCH` result (`none`) or any position strictly below `text.length`
(a proper prefix) yields `false`. -/
theorem C1_match_iff_whole (m : Match) (text : List Char) :
    (matchGlob m text = true ↔ tryMatch m text 0 = some text.length) ∧
    (tryMatch m text 0 = none → matchGlob m text = false) ∧
    (∀ p : Nat, tryMatch m text 0 = some p → p < text.length →
      matchGlob m text = false) := by
  refine ⟨?_, ?_, ?_⟩
  · simp [matchGlob]
  · intro h
    simp [matchGlob, h]
  · intro p hp hlt
    simp only [matchGlob, hp]
    simp only [Option.some.injEq, decide_eq_false_iff_not]
    omega

/-- Witness for C1 at a concrete proper-prefix input: `Lit("a")` against
`"ab"` stops at position `1 < 2`, so the top-level match is `false`. -/
theorem C1_witness :
    matchGlob (.lit ['a'] .null) ['a', 'b'] = false :=
  (C1_match_iff_whole (.lit ['a'] .null) ['a', 'b']).2.2 1 (by decide)
    (by decide)

/-- C2: divergence exhibit.  The source's `Any` candidate loop runs `i` from
`0`, not from `start`, so at `start = 1` the candidate `i = 0` — strictly
below `start` — is tried and accepted: `Any(Lit("xy"))._match("xy", 1)`
returns `2`, and `match(Lit("x", Any(Lit("xy"))), "xy")` is `true`.  Under
the specified candidate range `start .. len(text)` (the `tryMatchSpecAny`
variant) the same calls give `NOT_A_MATCH` and `false`. -/
theorem C2_any_loop_rewinds :
    tryMatch (.any (.lit ['x', 'y'] .null)) ['x', 'y'] 1 = some 2 ∧
    tryMatchSpecAny (.any (.lit ['x', 'y'] .null)) ['x', 'y'] 1 = none ∧
    matchGlob (.lit ['x'] (.any (.lit ['x', 'y'] .null))) ['x', 'y'] = true ∧
    matchGlobSpecAny (.lit ['x'] (.any (.lit ['x', 'y'] .null))) ['x', 'y']
      = false := by
  decide

/-- C3 counterexample: `Range('a','f')` with the default `Null` continuation
on `"ab"` from position `0`: the character is in range, and `_match` returns
the continuation's value `1` — an intermediate position, neither
`NOT_A_MATCH` nor the length `2` — contradicting the claim that every
non-completing case yields `NOT_A_MATCH`. -/
theorem C3_counterexample :
    tryMatch (.range 'a' 'f' .null) ['a', 'b'] 0 = some 1 ∧
    some 1 ≠ (none : Option Nat) ∧
    (1 : Nat) ≠ (['a', 'b'] : List Char).length := by
  decide

/-- C3 amended: `Range(low, high)` succeeds only when
`low ≤ text[start] ≤ high`, and then returns the continuation's result from
`start + 1` unchanged (which may be an intermediate position); an
out-of-range character gives `NOT_A_MATCH`; at or past the end of the text
the read yields the null character, so when `low ≥ '\x01'` at least one
remaining character is required. -/
theorem C3_range_amended (lo hi : Char) (rest : Match) (text : List Char)
    (start : Nat) :
    (lo ≤ charAt text start → charAt text start ≤ hi →
      tryMatch (.range lo hi rest) text start
        = tryMatch rest text (start + 1)) ∧
    (¬ (lo ≤ charAt text start ∧ charAt text start ≤ hi) →
      tryMatch (.range lo hi rest) text start = none) ∧
    (text.length ≤ start → Char.ofNat 1 ≤ lo →
      tryMatch (.range lo hi rest) text start = none) := by
  refine ⟨?_, ?_, ?_⟩
  · intro hl hr
    simp only [tryMatch]
    rw [if_pos ⟨hl, hr⟩]
  · intro hno
    simp only [tryMatch]
    rw [if_neg hno]
  · intro hlen hlo
    have hc : charAt text start = Char.ofNat 0 := by
      simp [charAt, List.getElem?_eq_none hlen]
    simp only [tryMatch, hc]
    rw [if_neg]
    intro hcon
    exact absurd (le_trans hlo hcon.1) (by decide)

/-- Witness for C3 amended, at `Range('a','f')` on `"ab"`: in-range at
position `0` hands back the continuation's result from position `1`, and at
the end-of-text position `2` the node fails. -/
theorem C3_witness :
    tryMatch (.range 'a' 'f' .null) ['a', 'b'] 0
        = tryMatch .null ['a', 'b'] 1 ∧
    tryMatch (.range 'a' 'f' .null) ['a', 'b'] 2 = none :=
  ⟨(C3_range_amended 'a' 'f' .null ['a', 'b'] 0).1 (by decide) (by decide),
    (C3_range_amended 'a' 'f' .null ['a', 'b'] 2).2.2 (by decide) (by decide)⟩

/-- C4: divergence exhibit.  On a token list in which `EitherStart`
(resp. `CharsetStart`) is not followed by its full fixed-arity construct,
`_parse` reads token positions past the end of the list — `tokens[start+1]`
to `tokens[start+3]` are indexed before the arity check, and the checks
`size - start < 3` (resp. `< 2`) are one short of the `4` (resp. `3`)
tokens the construct needs — so the result is the out-of-bounds read, not
`MalformedPattern`. -/
theorem C4_parser_reads_past_end :
    parseToks [⟨.ttEitherStart, []⟩] 0 = .error .indexOutOfBounds ∧
    parseToks [⟨.ttEitherStart, []⟩, ⟨.ttLiteral, ['a']⟩,
        ⟨.ttLiteral, ['b']⟩] 0 = .error .indexOutOfBounds ∧
    parseToks [⟨.ttCharsetStart, []⟩] 0 = .error .indexOutOfBounds ∧
    parseToks [⟨.ttCharsetStart, []⟩, ⟨.ttLiteral, ['a']⟩] 0
      = .error .indexOutOfBounds := by
  refine ⟨?_, ?_, ?_, ?_⟩ <;> (rw [parseToks]; simp [getTok])

/-- C5 counterexample: tokenizing `"b"` on the tokenizer that has already
tokenized `"a"` yields `[Literal "a", Literal "b"]`, not the fresh result
`[Literal "b"]`: the token vector persists across calls. -/
theorem C5_counterexample :
    tokenizeFresh ['a'] = .ok ⟨[⟨.ttLiteral, ['a']⟩], []⟩ ∧
    Tokenizer.tokenizeOn ⟨[⟨.ttLiteral, ['a']⟩], []⟩ ['b']
      = .ok ⟨[⟨.ttLiteral, ['a']⟩, ⟨.ttLiteral, ['b']⟩], []⟩ ∧
    tokenizeFresh ['b'] = .ok ⟨[⟨.ttLiteral, ['b']⟩], []⟩ ∧
    ([⟨.ttLiteral, ['a']⟩, ⟨.ttLiteral, ['b']⟩] : List Token)
      ≠ [⟨.ttLiteral, ['b']⟩] := by
  decide

/-- C5 amended: earlier `tokenize` calls do leave state — the accumulated
token vector — so tokenizing `p2` after a successful tokenization of `p1`
yields `tokens(p1) ++ tokens(p2)` (with an empty literal buffer), not
`tokens(p2)` alone. -/
theorem C5_tokens_accumulate (p1 p2 : List Char) (r1 r2 : Tokenizer)
    (h1 : tokenizeFresh p1 = .ok r1) (h2 : tokenizeFresh p2 = .ok r2) :
    Tokenizer.tokenizeOn r1 p2 = .ok ⟨r1.tokens ++ r2.tokens, []⟩ := by
  have hc1 : r1.current = [] := tokenizeGo_ok_current p1 _ _ _ h1
  have hc2 : r2.current = [] := tokenizeGo_ok_current p2 _ _ _ h2
  have hr1 : r1 = ⟨r1.tokens, []⟩ := by
    cases r1
    simp_all
  rw [Tokenizer.tokenizeOn, hr1]
  have happ := tokenizeGo_tokens_append r1.tokens p2 [] [] false
  simp only [List.append_nil] at happ
  rw [happ]
  have h2' : tokenizeGo ⟨[], []⟩ false p2 = .ok r2 := h2
  rw [h2']
  simp [Except.map, hc2]

/-- Witness for C5 amended at `p1 = "a"`, `p2 = "b"`. -/
theorem C5_witness :
    Tokenizer.tokenizeOn ⟨[⟨.ttLiteral, ['a']⟩], []⟩ ['b']
      = .ok ⟨[⟨.ttLiteral, ['a']⟩] ++ [⟨.ttLiteral, ['b']⟩], []⟩ :=
  C5_tokens_accumulate ['a'] ['b'] ⟨[⟨.ttLiteral, ['a']⟩], []⟩
    ⟨[⟨.ttLiteral, ['b']⟩], []⟩ (by decide) (by decide)

/-- C6: `tokenize(p)` raises `InvalidCharacter` iff `p` contains, at an
unescaped position, a character that is neither alphanumeric nor one of the
delimiters `* \x7b \x7d [ ] , \`; in the `Except` model an error result
carries no token sequence, so no partial tokens reach the caller. -/
theorem C6_invalid_character_iff (p : List Char) :
    tokenizeFresh p = .error .invalidCharacter
      ↔ hasUnescapedInvalid false p = true :=
  tokenizeGo_error_iff_invalid p ⟨[], []⟩ false

/-- Witness for C6: `"a!"` holds an unescaped `'!'`, and tokenizing it
raises `InvalidCharacter`. -/
theorem C6_witness :
    tokenizeFresh ['a', '!'] = .error .invalidCharacter :=
  (C6_invalid_character_iff ['a', '!']).mpr (by decide)

/-- C7: parsing the pattern `"\x7babc,def\x7d"` produces exactly the tree
`Either(Lit("abc"), Lit("def"))` with every continuation the default
`Null`, and `compare_match` agrees that it is structurally equal to the
directly constructed tree. -/
theorem C7_parse_round_trip :
    parseGlob ['\x7b', 'a', 'b', 'c', ',', 'd', 'e', 'f', '\x7d']
      = .ok (.either (.lit ['a', 'b', 'c'] .null) (.lit ['d', 'e', 'f'] .null)
          .null) ∧
    compareMatch
      (.either (.lit ['a', 'b', 'c'] .null) (.lit ['d', 'e', 'f'] .null)
        .null)
      (.either (.lit ['a', 'b', 'c'] .null) (.lit ['d', 'e', 'f'] .null)
        .null) = true := by
  constructor
  · have htok : tokenizeFresh
        ['\x7b', 'a', 'b', 'c', ',', 'd', 'e', 'f', '\x7d']
        = .ok ⟨[⟨.ttEitherStart, []⟩, ⟨.ttLiteral, ['a', 'b', 'c']⟩,
            ⟨.ttLiteral, ['d', 'e', 'f']⟩, ⟨.ttEitherEnd, []⟩], []⟩ := by
      decide
    have hp : parseToks [⟨.ttEitherStart, []⟩, ⟨.ttLiteral, ['a', 'b', 'c']⟩,
        ⟨.ttLiteral, ['d', 'e', 'f']⟩, ⟨.ttEitherEnd, []⟩] 0
        = .ok (.either (.lit ['a', 'b', 'c'] .null)
            (.lit ['d', 'e', 'f'] .null) .null) := by
      rw [parseToks]
      simp [getTok]
      rw [parseToks]
      simp
    rw [parseGlob, htok]
    exact hp
  · decide

/-- C8: an `Either` node consumes exactly one of its two alternatives:
`Either(Lit("a"), Lit("b"))` with the default `Null` continuation matches
`"a"` and does not match `"ab"`. -/
theorem C8_either_exactly_one :
    matchGlob (.either (.lit ['a'] .null) (.lit ['b'] .null) .null) ['a']
      = true ∧
    matchGlob (.either (.lit ['a'] .null) (.lit ['b'] .null) .null)
      ['a', 'b'] = false := by
  decide

/-- C9 counterexample: `"!\\"` ends in an unescaped backslash (its final
character is `'\\'` and the character before it is not), yet `tokenize`
raises `InvalidCharacter` — for the `'!'` — so the claim's blanket "does
not raise an error" fails. -/
theorem C9_counterexample :
    (['!', '\\'] : List Char).getLast? = some '\\' ∧ ('!' : Char) ≠ '\\' ∧
    tokenizeFresh ['!', '\\'] = .error .invalidCharacter := by
  decide

/-- C9 amended: the trailing unescaped backslash itself is silently
discarded — for every pattern `p` whose scan does not end mid-escape,
tokenizing `p ++ "\\"` gives exactly the same result as tokenizing `p`
(so the tokens of `"ab\\"` equal the tokens of `"ab"`) — but an invalid
character elsewhere in the pattern still raises `InvalidCharacter`. -/
theorem C9_trailing_backslash_discarded (p : List Char)
    (h : scanEsc false p = false) :
    tokenizeFresh (p ++ ['\\']) = tokenizeFresh p :=
  tokenizeGo_trailing_backslash p ⟨[], []⟩ false h

/-- Witness for C9 amended at `p = "ab"`. -/
theorem C9_witness :
    tokenizeFresh (['a', 'b'] ++ ['\\']) = tokenizeFresh ['a', 'b'] :=
  C9_trailing_backslash_discarded ['a', 'b'] (by decide)

/-- C10: an unescaped comma is accepted at any position — it steps the
tokenizer through `add(TT_None)`, which flushes a non-empty literal buffer
as a `Literal` token and emits no token of its own — and
`tokenize("ab,cd")` yields exactly `Literal("ab")` then `Literal("cd")`. -/
theorem C10_comma_separator :
    tokenizeFresh ['a', 'b', ',', 'c', 'd']
      = .ok ⟨[⟨.ttLiteral, ['a', 'b']⟩, ⟨.ttLiteral, ['c', 'd']⟩], []⟩ ∧
    (∀ (tk : Tokenizer) (cs : List Char),
      tokenizeGo tk false (',' :: cs)
        = tokenizeGo (tk.add .ttNone) false cs) ∧
    (∀ tk : Tokenizer,
      (tk.add .ttNone).tokens = tk.tokens ++
        (if tk.current.length > 0 then [⟨.ttLiteral, tk.current⟩] else []) ∧
      (tk.add .ttNone).current = []) := by
  refine ⟨by decide, ?_, ?_⟩
  · intro tk cs
    rfl
  · intro tk
    by_cases h : 0 < tk.current.length
    · simp [Tokenizer.add, h]
    · have hnil : tk.current = [] :=
        List.length_eq_zero.mp (Nat.eq_zero_of_not_pos h)
      simp [Tokenizer.add, h, hnil]

end GlobSpec
